import Mathlib

/-!
Verification development for the document-validation core of the
Startup-Analysis repository (`server/app/core/file_validator.py`).

The validator is a pure text-classification pipeline, so it is shallowly
embedded here as executable Lean functions over `String` (a `String` is a
structure holding a `List Char`, which mirrors Python's sequence-of-code-points
strings for the ASCII texts the validator works with).  I/O-bound parts
(`PyPDF2`, `python-docx`, `pandas` extraction) appear only through their
observable outcome: each uploaded file carries either extracted text or an
exception message, modelled as `Except String String`.
-/

namespace StartupAnalysis

/-! ## Character classes and low-level string helpers -/

/-- Python's `str.split()` / `str.strip()` / regex `\s` whitespace set
(space, tab, newline, carriage return, vertical tab, form feed). -/
def isSpaceChar (c : Char) : Bool :=
  c == ' ' || c == '\t' || c == '\n' || c == '\r' || c == '\x0b' || c == '\x0c'

/-- Regex `\w` word-character set `[a-zA-Z0-9_]` (ASCII, as all scanned
keywords and the texts of interest are ASCII). -/
def isWordChar (c : Char) : Bool :=
  c.isAlphanum || c == '_'

/-- Python's `str.lower()` (ASCII case folding). -/
def toLowerStr (s : String) : String :=
  ⟨s.data.map Char.toLower⟩

/-- Helper for substring search: does `needle` occur inside the second list? -/
def substrAux (needle : List Char) : List Char → Bool
  | [] => needle.isEmpty
  | c :: rest => needle.isPrefixOf (c :: rest) || substrAux needle rest

/-- Python's `needle in hay` substring test on strings. -/
def strContains (hay needle : String) : Bool :=
  substrAux needle.data hay.data

/-- Split a character list into the maximal runs of characters that do NOT
satisfy `sep`, discarding empty runs (first argument accumulates the current
run in reverse). -/
def splitByAux (sep : Char → Bool) : List Char → List Char → List (List Char)
  | cur, [] => if cur.isEmpty then [] else [cur.reverse]
  | cur, c :: rest =>
    if sep c then
      if cur.isEmpty then splitByAux sep [] rest
      else cur.reverse :: splitByAux sep [] rest
    else splitByAux sep (c :: cur) rest

/-- Python's no-argument `str.split()`: whitespace-delimited tokens. -/
def splitWhitespace (s : String) : List String :=
  (splitByAux isSpaceChar [] s.data).map (fun l => ⟨l⟩)

/-- The maximal `\w`-runs ("words") of a string, in order, with multiplicity. -/
def wordTokens (s : String) : List String :=
  (splitByAux (fun c => !isWordChar c) [] s.data).map (fun l => ⟨l⟩)

/-- Python's `str.strip()`. -/
def stripChars (l : List Char) : List Char :=
  ((l.dropWhile isSpaceChar).reverse.dropWhile isSpaceChar).reverse

/-- Comma-space join, Python's `', '.join(xs)`. -/
def joinComma : List String → String
  | [] => ""
  | [x] => x
  | x :: y :: rest => x ++ ", " ++ joinComma (y :: rest)

/-! ## The validator's fixed vocabulary (`FileValidator.__init__`) -/

/-- Source `self.financial_keywords`: category name → keyword list, in source order. -/
def financial_keywords : List (String × List String) :=
  [ ("balance_sheet",
      ["assets", "liabilities", "equity", "balance sheet", "current assets",
       "fixed assets", "accounts payable", "accounts receivable", "inventory",
       "cash", "retained earnings", "shareholder equity", "working capital"]),
    ("income_statement",
      ["revenue", "income", "expenses", "profit", "loss", "ebitda", "ebit",
       "gross profit", "net income", "operating expenses", "cost of goods sold",
       "depreciation", "amortization", "interest expense", "tax expense"]),
    ("cash_flow",
      ["cash flow", "operating cash flow", "investing cash flow",
       "financing cash flow", "cash receipts", "cash payments",
       "net cash flow", "beginning cash", "ending cash"]),
    ("cap_table",
      ["shares", "ownership", "equity", "stockholders", "shareholders",
       "common stock", "preferred stock", "options", "warrants",
       "dilution", "valuation", "share price", "capitalization table",
       "voting rights", "liquidation preference"]),
    ("financial_projections",
      ["forecast", "projection", "budget", "plan", "targets",
       "assumptions", "growth rate", "market size", "projections"]),
    ("general_financial",
      ["financial", "money", "dollar", "currency", "investment",
       "funding", "capital", "valuation", "metrics", "kpi",
       "performance", "analysis", "report", "statement"]) ]

/-- Source `self.company_keywords`. -/
def company_keywords : List String :=
  ["company", "corporation", "inc", "llc", "ltd", "startup",
   "business", "enterprise", "firm", "organization", "venture"]

/-- Source `self.non_financial_keywords` (red flags). -/
def non_financial_keywords : List String :=
  ["recipe", "cooking", "personal", "diary", "vacation", "travel",
   "photo", "image", "music", "video", "game", "entertainment",
   "social media", "facebook", "instagram", "twitter", "personal note",
   "shopping list", "grocery", "family", "wedding", "birthday"]

/-- Source `self.allowed_extensions` (a Python `set`; listed here in insertion
order — only membership and, in one error message, its joined rendering are
used, and no claim depends on the set's iteration order). -/
def allowed_extensions : List String :=
  [".pdf", ".docx", ".doc", ".xlsx", ".xls", ".csv", ".txt"]

/-- Source `self.min_financial_score`. -/
def min_financial_score : Nat := 3

/-- Source `self.min_startup_consistency_score` (the Python float `0.7`, which is
compared only against small-denominator ratios, so the exact rational `7/10`
is a faithful model). -/
def min_startup_consistency_score : ℚ := 7/10

/-! ## Extension gate (`_is_allowed_extension`) -/

/-- The final path component (`pathlib.PurePath.name`). -/
def lastComponent (l : List Char) : List Char :=
  l.foldl (fun acc c => if c == '/' then [] else acc ++ [c]) []

/-- Index of the last `'.'` in a character list, if any (`str.rfind('.')`). -/
def rfindDot (l : List Char) : Option Nat :=
  (List.range l.length).foldl (fun acc i => if l.getD i ' ' == '.' then some i else acc) none

/-- Python `pathlib.PurePath.suffix`: the part of the name from its last dot, empty
unless that dot is strictly inside the name (`0 < i < len(name) - 1`). -/
def path_suffix (filename : String) : String :=
  let name := lastComponent filename.data
  match rfindDot name with
  | none => ""
  | some i => if 0 < i && i < name.length - 1 then ⟨name.drop i⟩ else ""

/-- Source `FileValidator._is_allowed_extension`. -/
def is_allowed_extension (filename : String) : Bool :=
  if filename = "" then false
  else allowed_extensions.contains (toLowerStr (path_suffix filename))

/-! ## Text normalization (`_normalize_text`) -/

/-- Source `FileValidator._normalize_text`: lower-case, drop every character outside
`[a-zA-Z0-9\s]`, then strip surrounding whitespace. -/
def normalize_text (text : String) : String :=
  if text = "" then ""
  else ⟨stripChars ((toLowerStr text).data.filter (fun c => c.isAlphanum || isSpaceChar c))⟩

/-! ## Per-file analysis (`_analyze_file_content`) -/

/-- The per-file analysis dictionary built by `_analyze_file_content`.
`startup_score` is a Python float `matches / total_words`; both operands are
small naturals, so it is modelled as the exact rational. -/
structure FileAnalysis where
  filename : String
  is_financial : Bool
  detected_type : String
  financial_score : Nat
  startup_consistent : Bool
  startup_score : ℚ
  red_flags : List String
deriving DecidableEq

/-- The red-flag terms of `non_financial_keywords` occurring in the
(lower-cased) content, in vocabulary order — each distinct term counted once,
exactly as the source's `for keyword in ...: if keyword in content_lower`
loop does (the vocabulary list has no duplicates). -/
def red_flags (content_lower : String) : List String :=
  non_financial_keywords.filter (fun k => strContains content_lower k)

/-- How many keywords of one category's list occur in the content
(the source's `category_matches` counter). -/
def category_match_count (content_lower : String) (keywords : List String) : Nat :=
  (keywords.filter (fun k => strContains content_lower k)).length

/-- The source's `financial_score`: the per-category match counts, summed. -/
def financial_score_of (content_lower : String) : Nat :=
  (financial_keywords.map (fun p => category_match_count content_lower p.2)).sum

/-- The source's `detected_categories`: names of categories with ≥ 1 match,
in taxonomy order. -/
def detected_categories (content_lower : String) : List String :=
  (financial_keywords.filter (fun p => 0 < category_match_count content_lower p.2)).map
    (fun p => p.1)

/-- The source's startup-token match counter: whitespace tokens of the
startup name (with multiplicity) of length > 2 occurring in the content. -/
def startup_match_count (content_lower startup_name : String) : Nat :=
  ((splitWhitespace startup_name).filter
    (fun w => 2 < w.length && strContains content_lower w)).length

/-- Source `FileValidator._analyze_file_content`.  The mutation-style construction of
the Python dict is rendered as the record built in the branch that returns it:
empty content and the `red_flag_count > 2` short-circuit return the dict with
its initial defaults (score 0, `is_financial` False), otherwise scoring and
startup-consistency fields are filled in. -/
def analyze_file_content (filename content startup_name : String) : FileAnalysis :=
  if content = "" then
    { filename := filename, is_financial := false, detected_type := "empty_or_unreadable",
      financial_score := 0, startup_consistent := false, startup_score := 0, red_flags := [] }
  else
    let content_lower := toLowerStr content
    let rf := red_flags content_lower
    if 2 < rf.length then
      { filename := filename, is_financial := false, detected_type := "non_financial_personal",
        financial_score := 0, startup_consistent := false, startup_score := 0, red_flags := rf }
    else
      let score := financial_score_of content_lower
      let cats := detected_categories content_lower
      let dtype :=
        if cats ≠ [] then joinComma cats
        else if 0 < score then "potentially_financial"
        else "non_financial"
      let sw := splitWhitespace startup_name
      let sscore : ℚ :=
        if startup_name ≠ "" ∧ 0 < sw.length then
          (startup_match_count content_lower startup_name : ℚ) / (sw.length : ℚ)
        else 0
      let sc : Bool :=
        if startup_name ≠ "" ∧ 0 < sw.length then
          decide (min_startup_consistency_score ≤ sscore)
        else false
      { filename := filename, is_financial := decide (min_financial_score ≤ score),
        detected_type := dtype, financial_score := score,
        startup_consistent := sc, startup_score := sscore, red_flags := rf }

/-! ## Cross-file consistency (`_check_cross_file_consistency`) -/

structure ConsistencyCheck where
  consistent : Bool
  warnings : List String
deriving DecidableEq

/-- The batch-level warning text produced by `_check_cross_file_consistency`. -/
def cross_file_warning_msg : String :=
  "Files may contain references to multiple different companies. " ++
  "Please ensure all files are related to the same startup."

/-- For one file's lower-cased content, the `re.findall(rf'\b\w*{keyword}\w*\b', ...)`
matches accumulated over `company_keywords`: for each keyword, every maximal
word containing it as a substring (a word containing the keyword matches the
pattern exactly once, as the whole word). -/
def company_refs (content_lower : String) : List String :=
  company_keywords.flatMap
    (fun kw => (wordTokens content_lower).filter (fun w => strContains w kw))

/-- Source `FileValidator._check_cross_file_consistency`.  `list(set(...))` is
modelled by `List.eraseDups` (Python's set iteration order is unspecified;
only the number of distinct references is consumed downstream).  Note the
source initializes `result['consistent'] = True` and never assigns it again,
so `consistent` is `true` on every path — this is preserved faithfully.
The `startup_name` parameter is unused, as in the source. -/
def check_cross_file_consistency (file_contents : List (String × String))
    (startup_name : String) : ConsistencyCheck :=
  if file_contents.length < 2 then { consistent := true, warnings := [] }
  else
    let per_file := file_contents.map (fun fc => (company_refs (toLowerStr fc.2)).eraseDups)
    let all_references := per_file.flatten
    let unique_references := all_references.eraseDups
    if 5 < unique_references.length then
      { consistent := true, warnings := [cross_file_warning_msg] }
    else
      { consistent := true, warnings := [] }

/-! ## Batch validation (`validate_files`) -/

/-- An uploaded file, as the validator observes it: its (claimed) filename,
and the outcome of content extraction — the extracted text, or the message of
the exception extraction raised.  The extraction bodies themselves
(`PyPDF2` / `python-docx` / `pandas` parsing of raw bytes) are external
library I/O and enter the model only through this outcome. -/
instance : DecidableEq (Except String String) := fun
  | .ok a, .ok b =>
    if h : a = b then .isTrue (by rw [h]) else .isFalse (by simp [h])
  | .ok _, .error _ => .isFalse (by simp)
  | .error _, .ok _ => .isFalse (by simp)
  | .error a, .error b =>
    if h : a = b then .isTrue (by rw [h]) else .isFalse (by simp [h])

structure UploadFile where
  filename : String
  extract : Except String String
deriving DecidableEq

/-- The text handed to analysis: extracted content, or `""` when extraction
failed (`validate_files` catches the exception and records empty content). -/
def contentOf (f : UploadFile) : String :=
  match f.extract with
  | .ok c => c
  | .error _ => ""

/-- The batch verdict dictionary. -/
structure ValidationVerdict where
  is_valid : Bool
  errors : List String
  warnings : List String
  file_analyses : List FileAnalysis
deriving DecidableEq

/-- Unsupported-format error text (the Python f-string joins the
`allowed_extensions` set; its unspecified iteration order is rendered here in
insertion order — no claim depends on this message's exact tail). -/
def extension_error_msg (filename : String) : String :=
  "File '" ++ filename ++ "' has unsupported format. Allowed formats: " ++
    joinComma allowed_extensions

/-- Extraction-failure warning text. -/
def extraction_warning_msg (filename err : String) : String :=
  "Could not analyze content of '" ++ filename ++ "': " ++ err

/-- Non-financial-file error text. -/
def nonfinancial_error_msg (filename detected : String) : String :=
  "File '" ++ filename ++ "' does not appear to be financial. " ++
    "Detected content type: " ++ detected

/-- Renders a score for the consistency warning (the Python `:.2f` float
formatting is modelled as the exact rational's `num/den` rendering; no claim
depends on the digits of this message). -/
def format_score (q : ℚ) : String :=
  toString q.num ++ "/" ++ toString q.den

/-- Low startup-consistency warning text. -/
def consistency_warning_msg (filename startup_name : String) (score : ℚ) : String :=
  "File '" ++ filename ++ "' may not be related to startup '" ++ startup_name ++
    "'. Consistency score: " ++ format_score score

/-- Source `FileValidator.validate_files`.  The source mutates a `results` dict; the
model builds the same dict per branch: if any extension is disallowed the
function returns immediately with one error per offending file and nothing
else; otherwise content is taken per file (empty on extraction failure, with
a warning), every file is analysed against the normalized startup name,
`is_valid` ends up False exactly when some analysis is non-financial (one
error each), low-consistency files add warnings, and the cross-file check's
warnings are appended only when its `consistent` flag is False (which, see
`check_cross_file_consistency`, never happens).  List order matches the
source's append order: extraction warnings, then per-file consistency
warnings, then cross-file warnings. -/
def validate_files (files : List UploadFile) (startup_name : String) : ValidationVerdict :=
  let bad := files.filter (fun f => !is_allowed_extension f.filename)
  if bad = [] then
    let nm := normalize_text startup_name
    let extraction_warnings := files.filterMap
      (fun f => match f.extract with
        | .ok _ => none
        | .error e => some (extraction_warning_msg f.filename e))
    let analyses := files.map (fun f => analyze_file_content f.filename (contentOf f) nm)
    let fin_errors := analyses.filterMap
      (fun a => if a.is_financial then none
                else some (nonfinancial_error_msg a.filename a.detected_type))
    let cons_warnings := analyses.filterMap
      (fun a => if !a.startup_consistent && decide (a.startup_score < min_startup_consistency_score)
                then some (consistency_warning_msg a.filename startup_name a.startup_score)
                else none)
    let cc := check_cross_file_consistency (files.map (fun f => (f.filename, contentOf f))) nm
    let cross_warnings := if cc.consistent then [] else cc.warnings
    { is_valid := analyses.all (fun a => a.is_financial),
      errors := fin_errors,
      warnings := extraction_warnings ++ cons_warnings ++ cross_warnings,
      file_analyses := analyses }
  else
    { is_valid := false,
      errors := bad.map (fun f => extension_error_msg f.filename),
      warnings := [],
      file_analyses := [] }

/-- The startup-consistency ratio as the specification words it (claim C3):
the tokens of length > 2 are the qualifying tokens, the matching qualifying
tokens are counted, and the ratio divides by the number of QUALIFYING tokens
(0 when there is none).  This definition follows the spec's words and is
compared against the source-derived `analyze_file_content`. -/
def claimed_startup_ratio (startup_name content_lower : String) : ℚ :=
  let qualifying := (splitWhitespace startup_name).filter (fun w => 2 < w.length)
  if qualifying.length = 0 then 0
  else ((qualifying.filter (fun w => strContains content_lower w)).length : ℚ) /
    (qualifying.length : ℚ)

/-! ## General lemmas about the embedding -/

theorem analyze_main_eq (fn content nm : String) (h1 : content ≠ "")
    (h2 : ¬ 2 < (red_flags (toLowerStr content)).length) :
    analyze_file_content fn content nm =
      { filename := fn,
        is_financial := decide (min_financial_score ≤ financial_score_of (toLowerStr content)),
        detected_type :=
          if detected_categories (toLowerStr content) ≠ [] then
            joinComma (detected_categories (toLowerStr content))
          else if 0 < financial_score_of (toLowerStr content) then "potentially_financial"
          else "non_financial",
        financial_score := financial_score_of (toLowerStr content),
        startup_consistent :=
          if nm ≠ "" ∧ 0 < (splitWhitespace nm).length then
            decide (min_startup_consistency_score ≤
              ((startup_match_count (toLowerStr content) nm : ℚ) /
                ((splitWhitespace nm).length : ℚ)))
          else false,
        startup_score :=
          if nm ≠ "" ∧ 0 < (splitWhitespace nm).length then
            (startup_match_count (toLowerStr content) nm : ℚ) /
              ((splitWhitespace nm).length : ℚ)
          else 0,
        red_flags := red_flags (toLowerStr content) } := by
  simp only [analyze_file_content]
  rw [if_neg h1, if_neg h2]
  by_cases hg : nm ≠ "" ∧ 0 < (splitWhitespace nm).length <;> simp [hg]

theorem validate_files_clean (files : List UploadFile) (nm : String)
    (h : files.filter (fun f => !is_allowed_extension f.filename) = []) :
    validate_files files nm =
      { is_valid :=
          (files.map (fun f =>
            analyze_file_content f.filename (contentOf f) (normalize_text nm))).all
            (fun a => a.is_financial),
        errors :=
          (files.map (fun f =>
            analyze_file_content f.filename (contentOf f) (normalize_text nm))).filterMap
            (fun a => if a.is_financial then none
                      else some (nonfinancial_error_msg a.filename a.detected_type)),
        warnings :=
          (files.filterMap
            (fun f => match f.extract with
              | .ok _ => none
              | .error e => some (extraction_warning_msg f.filename e))) ++
          ((files.map (fun f =>
            analyze_file_content f.filename (contentOf f) (normalize_text nm))).filterMap
            (fun a =>
              if !a.startup_consistent &&
                  decide (a.startup_score < min_startup_consistency_score)
              then some (consistency_warning_msg a.filename nm a.startup_score)
              else none)) ++
          (if (check_cross_file_consistency
                (files.map (fun f => (f.filename, contentOf f))) (normalize_text nm)).consistent
           then []
           else (check_cross_file_consistency
                (files.map (fun f => (f.filename, contentOf f))) (normalize_text nm)).warnings),
        file_analyses :=
          files.map (fun f =>
            analyze_file_content f.filename (contentOf f) (normalize_text nm)) } := by
  simp only [validate_files]
  rw [if_pos h]

theorem validate_files_reject (files : List UploadFile) (nm : String)
    (h : files.filter (fun f => !is_allowed_extension f.filename) ≠ []) :
    validate_files files nm =
      { is_valid := false,
        errors := (files.filter (fun f => !is_allowed_extension f.filename)).map
          (fun f => extension_error_msg f.filename),
        warnings := [],
        file_analyses := [] } := by
  simp only [validate_files]
  rw [if_neg h]

theorem check_cross_consistent_true (fc : List (String × String)) (nm : String) :
    (check_cross_file_consistency fc nm).consistent = true := by
  simp only [check_cross_file_consistency]
  split
  · rfl
  · split <;> rfl

theorem analyze_startup_score_eq (fn content nm : String) (h1 : content ≠ "")
    (h2 : ¬ 2 < (red_flags (toLowerStr content)).length) :
    (analyze_file_content fn content nm).startup_score =
      if nm ≠ "" ∧ 0 < (splitWhitespace nm).length then
        (startup_match_count (toLowerStr content) nm : ℚ) / ((splitWhitespace nm).length : ℚ)
      else 0 := by
  rw [analyze_main_eq fn content nm h1 h2]

theorem analyze_startup_consistent_eq (fn content nm : String) (h1 : content ≠ "")
    (h2 : ¬ 2 < (red_flags (toLowerStr content)).length) :
    (analyze_file_content fn content nm).startup_consistent =
      if nm ≠ "" ∧ 0 < (splitWhitespace nm).length then
        decide (min_startup_consistency_score ≤
          ((startup_match_count (toLowerStr content) nm : ℚ) /
            ((splitWhitespace nm).length : ℚ)))
      else false := by
  rw [analyze_main_eq fn content nm h1 h2]

theorem financial_score_eq_zero_iff (cl : String) :
    financial_score_of cl = 0 ↔ detected_categories cl = [] := by
  unfold financial_score_of detected_categories
  rw [List.sum_eq_zero_iff, List.map_eq_nil_iff, List.filter_eq_nil_iff]
  constructor
  · intro h p hp
    have := h (category_match_count cl p.2) (List.mem_map_of_mem _ hp)
    simp [this]
  · intro h x hx
    rcases List.mem_map.mp hx with ⟨p, hp, rfl⟩
    have := h p hp
    simpa using this

theorem le_financial_score_of_mem (cl : String) (p : String × List String)
    (hp : p ∈ financial_keywords) :
    category_match_count cl p.2 ≤ financial_score_of cl :=
  List.le_sum_of_mem (List.mem_map_of_mem _ hp)

theorem detected_categories_subset (cl : String) :
    ∀ c ∈ detected_categories cl, c ∈ financial_keywords.map (fun p => p.1) := by
  intro c hc
  unfold detected_categories at hc
  rcases List.mem_map.mp hc with ⟨p, hp, rfl⟩
  exact List.mem_map_of_mem _ (List.mem_of_mem_filter hp)

theorem joinComma_cats_ne (cats : List String)
    (hsub : ∀ c ∈ cats, c ∈ financial_keywords.map (fun p => p.1)) (hne : cats ≠ []) :
    joinComma cats ≠ "non_financial" ∧ joinComma cats ≠ "potentially_financial" := by
  match cats, hne with
  | [x], _ =>
    have hx := hsub x (by simp)
    simp [financial_keywords] at hx
    rcases hx with rfl | rfl | rfl | rfl | rfl | rfl <;> exact ⟨by decide, by decide⟩
  | x :: y :: rest, _ =>
    have hcomma : (',' : Char) ∈ (joinComma (x :: y :: rest)).data := by
      show (',' : Char) ∈ (x ++ ", " ++ joinComma (y :: rest)).data
      have hdata : (x ++ ", " ++ joinComma (y :: rest)).data
          = (x.data ++ [',', ' ']) ++ (joinComma (y :: rest)).data := rfl
      rw [hdata]
      simp
    constructor <;> intro h <;> rw [h] at hcomma <;> exact absurd hcomma (by decide)

theorem length_filter_and_le {α : Type} (l : List α) (p q : α → Bool) :
    (l.filter fun a => p a && q a).length ≤ (l.filter p).length := by
  rw [← List.countP_eq_length_filter, ← List.countP_eq_length_filter]
  exact List.countP_mono_left (by intro a _ h; exact ((Bool.and_eq_true _ _).mp h).1)

theorem extraction_warning_ne_cross (fn e : String) :
    extraction_warning_msg fn e ≠ cross_file_warning_msg := by
  intro h
  have h1 : (extraction_warning_msg fn e).data.head? = some 'C' := rfl
  rw [h] at h1
  exact absurd h1 (by decide)

theorem consistency_warning_ne_cross (fn nm : String) (q : ℚ) :
    consistency_warning_msg fn nm q ≠ cross_file_warning_msg := by
  intro h
  have h1 : (consistency_warning_msg fn nm q).data.take 5 = ['F', 'i', 'l', 'e', ' '] := rfl
  rw [h] at h1
  exact absurd h1 (by decide)

theorem cross_warning_never_in_verdict (files : List UploadFile) (name : String) :
    cross_file_warning_msg ∉ (validate_files files name).warnings := by
  by_cases hbad : files.filter (fun f => !is_allowed_extension f.filename) = []
  · rw [validate_files_clean files name hbad]
    intro hmem
    rw [check_cross_consistent_true, if_pos rfl, List.append_nil] at hmem
    rcases List.mem_append.mp hmem with hmem | hmem
    · rcases List.mem_filterMap.mp hmem with ⟨f, _, hf⟩
      rcases hex : f.extract with e | c <;> rw [hex] at hf <;> simp at hf
      exact extraction_warning_ne_cross f.filename e hf
    · rcases List.mem_filterMap.mp hmem with ⟨a, _, ha⟩
      by_cases hc : (!a.startup_consistent &&
          decide (a.startup_score < min_startup_consistency_score)) = true
      · rw [if_pos hc] at ha
        simp only [Option.some.injEq] at ha
        exact consistency_warning_ne_cross a.filename name a.startup_score ha
      · rw [if_neg hc] at ha
        exact absurd ha (by simp)
  · rw [validate_files_reject files name hbad]
    simp

/-! ## The claims -/

/-- Claim C1: for every batch and claimed startup name (no unexpected internal
exception is modelled), the verdict's `is_valid` is false iff some file has a
disallowed extension or some produced `FileAnalysis` has `is_financial` false;
consistency concerns only ever add warnings and never make `is_valid` false. -/
theorem c1_validity_iff (files : List UploadFile) (name : String) :
    (validate_files files name).is_valid = false ↔
      ((∃ f ∈ files, is_allowed_extension f.filename = false) ∨
       ∃ a ∈ (validate_files files name).file_analyses, a.is_financial = false) := by
  by_cases hbad : files.filter (fun f => !is_allowed_extension f.filename) = []
  · rw [validate_files_clean files name hbad]
    simp only [List.all_eq_false]
    constructor
    · intro h
      rcases h with ⟨a, ha, hfa⟩
      exact Or.inr ⟨a, ha, by simpa using hfa⟩
    · intro h
      rcases h with ⟨f, hf, hext⟩ | ⟨a, ha, hfa⟩
      · have := List.filter_eq_nil_iff.mp hbad f hf
        simp [hext] at this
      · exact ⟨a, ha, by simp [hfa]⟩
  · rw [validate_files_reject files name hbad]
    constructor
    · intro _
      rcases List.exists_mem_of_ne_nil _ hbad with ⟨f, hf⟩
      refine Or.inl ⟨f, List.mem_of_mem_filter hf, ?_⟩
      have := List.of_mem_filter hf
      simpa using this
    · intro _
      rfl

/-- Claim C2: non-empty text in which more than 2 distinct red-flag terms
occur is classified `non_financial_personal` with financial score 0 and
`is_financial` false, regardless of any financial keywords it contains. -/
theorem c2_red_flag_short_circuit (fn content name : String) (h1 : content ≠ "")
    (h2 : 2 < (red_flags (toLowerStr content)).length) :
    (analyze_file_content fn content name).detected_type = "non_financial_personal" ∧
    (analyze_file_content fn content name).financial_score = 0 ∧
    (analyze_file_content fn content name).is_financial = false := by
  simp only [analyze_file_content]
  rw [if_neg h1, if_pos h2]
  exact ⟨rfl, rfl, rfl⟩

/-- Witness for C2, at a text that also contains financial keywords
(`revenue`, `profit`, `cash`) next to 3 distinct red-flag terms. -/
theorem c2_red_flag_short_circuit_witness :
    (analyze_file_content "personal_diary.txt"
      "revenue profit cash vacation family wedding" "TechStart").detected_type
        = "non_financial_personal" ∧
    (analyze_file_content "personal_diary.txt"
      "revenue profit cash vacation family wedding" "TechStart").financial_score = 0 ∧
    (analyze_file_content "personal_diary.txt"
      "revenue profit cash vacation family wedding" "TechStart").is_financial = false :=
  c2_red_flag_short_circuit "personal_diary.txt"
    "revenue profit cash vacation family wedding" "TechStart" (by decide) (by decide)

/-- Claim C4: a batch containing a file with a disallowed extension yields
`is_valid` false, exactly one error per offending file, empty `file_analyses`
(and empty warnings): the whole record is the early-return one, so no
extraction or content scoring output exists for any file of the batch. -/
theorem c4_extension_gate (files : List UploadFile) (name : String)
    (h : ∃ f ∈ files, is_allowed_extension f.filename = false) :
    validate_files files name =
      { is_valid := false,
        errors := (files.filter (fun f => !is_allowed_extension f.filename)).map
          (fun f => extension_error_msg f.filename),
        warnings := [],
        file_analyses := [] } ∧
    (validate_files files name).errors.length =
      (files.filter (fun f => !is_allowed_extension f.filename)).length := by
  have hbad : files.filter (fun f => !is_allowed_extension f.filename) ≠ [] := by
    rcases h with ⟨f, hf, hext⟩
    intro hnil
    have := List.filter_eq_nil_iff.mp hnil f hf
    simp [hext] at this
  refine ⟨validate_files_reject files name hbad, ?_⟩
  rw [validate_files_reject files name hbad]
  simp

/-- Witness for C4 at a one-bad-file batch. -/
theorem c4_extension_gate_witness :
    (validate_files [⟨"virus.exe", Except.ok "assets liabilities cash"⟩] "TechStart").file_analyses
      = [] ∧
    (validate_files [⟨"virus.exe", Except.ok "assets liabilities cash"⟩] "TechStart").is_valid
      = false := by
  have h := c4_extension_gate [⟨"virus.exe", Except.ok "assets liabilities cash"⟩] "TechStart"
    (by decide)
  rw [h.1]
  exact ⟨rfl, rfl⟩

/-- Claim C9: the empty batch validates to the all-empty, valid verdict. -/
theorem c9_empty_batch (name : String) :
    validate_files [] name =
      { is_valid := true, errors := [], warnings := [], file_analyses := [] } := rfl

/-- Claim C5: when a file's extraction raises (its outcome is an error), the
verdict contains a warning naming it, the batch is not aborted (every file
still gets its analysis, in order), and the file is analysed as if its content
were the empty string — hence non-financial with detected type
`empty_or_unreadable`. -/
theorem c5_extraction_failure (files : List UploadFile) (name : String)
    (f : UploadFile) (e : String)
    (hall : ∀ g ∈ files, is_allowed_extension g.filename = true)
    (hf : f ∈ files) (he : f.extract = Except.error e) :
    extraction_warning_msg f.filename e ∈ (validate_files files name).warnings ∧
    (validate_files files name).file_analyses =
      files.map (fun g => analyze_file_content g.filename (contentOf g) (normalize_text name)) ∧
    analyze_file_content f.filename "" (normalize_text name)
      ∈ (validate_files files name).file_analyses ∧
    (analyze_file_content f.filename "" (normalize_text name)).detected_type
      = "empty_or_unreadable" ∧
    (analyze_file_content f.filename "" (normalize_text name)).is_financial = false := by
  have hclean : files.filter (fun g => !is_allowed_extension g.filename) = [] := by
    rw [List.filter_eq_nil_iff]
    intro g hg
    simp [hall g hg]
  rw [validate_files_clean files name hclean]
  refine ⟨?_, rfl, ?_, rfl, rfl⟩
  · refine List.mem_append.mpr (Or.inl (List.mem_append.mpr (Or.inl ?_)))
    exact List.mem_filterMap.mpr ⟨f, hf, by rw [he]⟩
  · refine List.mem_map.mpr ⟨f, hf, ?_⟩
    have : contentOf f = "" := by simp [contentOf, he]
    rw [this]

/-- Witness for C5 at a single file whose extraction fails with message
`boom`. -/
theorem c5_extraction_failure_witness :
    extraction_warning_msg "a.txt" "boom"
      ∈ (validate_files [⟨"a.txt", Except.error "boom"⟩] "TechStart").warnings ∧
    (analyze_file_content "a.txt" "" (normalize_text "TechStart")).detected_type
      = "empty_or_unreadable" :=
  ⟨(c5_extraction_failure [⟨"a.txt", Except.error "boom"⟩] "TechStart"
      ⟨"a.txt", Except.error "boom"⟩ "boom" (by decide) (by decide) rfl).1,
   (c5_extraction_failure [⟨"a.txt", Except.error "boom"⟩] "TechStart"
      ⟨"a.txt", Except.error "boom"⟩ "boom" (by decide) (by decide) rfl).2.2.2.1⟩

/-- Claim C7: non-empty text with at most 2 distinct red flags and at least 3
keyword matches inside one single taxonomy category is financial: the score
reaches the threshold 3. -/
theorem c7_single_category_financial (fn content name : String) (h1 : content ≠ "")
    (h2 : (red_flags (toLowerStr content)).length ≤ 2)
    (h3 : ∃ p ∈ financial_keywords, 3 ≤ category_match_count (toLowerStr content) p.2) :
    (analyze_file_content fn content name).is_financial = true := by
  have hscore : min_financial_score ≤ financial_score_of (toLowerStr content) := by
    rcases h3 with ⟨p, hp, h3⟩
    exact le_trans h3 (le_financial_score_of_mem (toLowerStr content) p hp)
  rw [analyze_main_eq fn content name h1 (by omega)]
  exact decide_eq_true hscore

/-- Witness for C7: three balance-sheet terms, no red flags. -/
theorem c7_single_category_financial_witness :
    (analyze_file_content "b.txt" "assets liabilities cash" "TechStart").is_financial = true :=
  c7_single_category_financial "b.txt" "assets liabilities cash" "TechStart"
    (by decide) (by decide) (by decide)

/-- Claim C8: for non-empty text with at most 2 distinct red-flag matches, a
positive financial score forces a non-empty detected-category list, so the
label `potentially_financial` is never produced and `non_financial` appears
exactly when the score is 0. -/
theorem c8_potentially_financial_unreachable (fn content name : String) (h1 : content ≠ "")
    (h2 : (red_flags (toLowerStr content)).length ≤ 2) :
    (analyze_file_content fn content name).detected_type ≠ "potentially_financial" ∧
    ((analyze_file_content fn content name).detected_type = "non_financial" ↔
      (analyze_file_content fn content name).financial_score = 0) := by
  rw [analyze_main_eq fn content name h1 (by omega)]
  by_cases hc : detected_categories (toLowerStr content) = []
  · have hs : financial_score_of (toLowerStr content) = 0 :=
      (financial_score_eq_zero_iff _).mpr hc
    simp [hc, hs]
  · have hs : financial_score_of (toLowerStr content) ≠ 0 :=
      fun h => hc ((financial_score_eq_zero_iff _).mp h)
    have hj := joinComma_cats_ne _ (detected_categories_subset _) hc
    simp [hc, hj.1, hj.2, hs]

/-- Witness for C8 at a zero-score text and at a positive-score text. -/
theorem c8_potentially_financial_unreachable_witness :
    ((analyze_file_content "f.txt" "hello there" "").detected_type ≠ "potentially_financial" ∧
      ((analyze_file_content "f.txt" "hello there" "").detected_type = "non_financial" ↔
        (analyze_file_content "f.txt" "hello there" "").financial_score = 0)) ∧
    ((analyze_file_content "g.txt" "equity" "").detected_type ≠ "potentially_financial" ∧
      ((analyze_file_content "g.txt" "equity" "").detected_type = "non_financial" ↔
        (analyze_file_content "g.txt" "equity" "").financial_score = 0)) :=
  ⟨c8_potentially_financial_unreachable "f.txt" "hello there" "" (by decide) (by decide),
   c8_potentially_financial_unreachable "g.txt" "equity" "" (by decide) (by decide)⟩

/-- Claim C10: a keyword listed under several categories scores once per
category: the text `equity` (listed under both `balance_sheet` and
`cap_table`) scores 2 with detected type `balance_sheet, cap_table`, even
though only 1 distinct taxonomy term occurs in it; in general the score is
the sum over categories of each category's own matched-term count. -/
theorem c10_multi_category_keyword :
    ((analyze_file_content "f.txt" "equity" "").financial_score = 2 ∧
     (analyze_file_content "f.txt" "equity" "").detected_type = "balance_sheet, cap_table" ∧
     (((financial_keywords.flatMap (fun p => p.2)).eraseDups).filter
        (fun k => strContains (toLowerStr "equity") k)).length = 1) ∧
    ∀ fn content name, content ≠ "" → (red_flags (toLowerStr content)).length ≤ 2 →
      (analyze_file_content fn content name).financial_score =
        (financial_keywords.map
          (fun p => (p.2.filter (fun k => strContains (toLowerStr content) k)).length)).sum := by
  refine ⟨⟨by decide, by decide, by decide⟩, ?_⟩
  intro fn content name h1 h2
  rw [analyze_main_eq fn content name h1 (by omega)]
  rfl

/-- Witness for the quantified part of C10, at the text `cash flow` (scoring
in `balance_sheet` via `cash` and in `cash_flow` via `cash flow`). -/
theorem c10_multi_category_keyword_witness :
    (analyze_file_content "g.txt" "cash flow" "").financial_score =
      (financial_keywords.map
        (fun p => (p.2.filter (fun k => strContains (toLowerStr "cash flow") k)).length)).sum :=
  c10_multi_category_keyword.2 "g.txt" "cash flow" "" (by decide) (by decide)

/-- Counterexample to claim C3: for the name `ai corporation` and the text
`corporation`, the only qualifying token (`corporation`, length > 2) matches,
so the claimed ratio (matches / qualifying tokens) is 1 — but the source
divides by the TOTAL number of name tokens (`ai` included) and yields 1/2. -/
theorem c3_counterexample :
    (analyze_file_content "doc.txt" "corporation" "ai corporation").startup_score ≠
      claimed_startup_ratio "ai corporation" (toLowerStr "corporation") := by
  have hg : ("ai corporation" : String) ≠ "" ∧
      0 < (splitWhitespace "ai corporation").length := by decide
  have h1 : (analyze_file_content "doc.txt" "corporation" "ai corporation").startup_score
      = (1 : ℚ) / 2 := by
    rw [analyze_main_eq "doc.txt" "corporation" "ai corporation" (by decide) (by decide)]
    show (if ("ai corporation" : String) ≠ "" ∧ 0 < (splitWhitespace "ai corporation").length
        then (startup_match_count (toLowerStr "corporation") "ai corporation" : ℚ) /
          ((splitWhitespace "ai corporation").length : ℚ)
        else 0) = (1 : ℚ) / 2
    rw [if_pos hg,
      show startup_match_count (toLowerStr "corporation") "ai corporation" = 1 from rfl,
      show (splitWhitespace "ai corporation").length = 2 from rfl]
    norm_num
  have h2 : claimed_startup_ratio "ai corporation" (toLowerStr "corporation") = 1 := by
    simp only [claimed_startup_ratio]
    rw [show ((splitWhitespace "ai corporation").filter (fun w => 2 < w.length)).filter
          (fun w => strContains (toLowerStr "corporation") w) = ["corporation"] from rfl,
      show (splitWhitespace "ai corporation").filter (fun w => 2 < w.length)
          = ["corporation"] from rfl]
    norm_num
  rw [h1, h2]
  norm_num

/-- Claim C3 as amended (the only change the counterexample forces is the
denominator): away from the empty-content and red-flag short-circuits, the
startup-consistency ratio is the number of name tokens of length > 2 found in
the text divided by the TOTAL number of whitespace tokens of the name (0 when
the name is empty or has no token); it lies in [0,1]; it is 0 when the name
has no qualifying token; and `startup_consistent` is true iff the ratio is at
least `min_startup_consistency_score` (0.7). -/
theorem c3_amended_ratio (fn content name : String) (h1 : content ≠ "")
    (h2 : (red_flags (toLowerStr content)).length ≤ 2) :
    (analyze_file_content fn content name).startup_score =
      (if name ≠ "" ∧ 0 < (splitWhitespace name).length then
        (startup_match_count (toLowerStr content) name : ℚ) /
          ((splitWhitespace name).length : ℚ)
       else 0) ∧
    0 ≤ (analyze_file_content fn content name).startup_score ∧
    (analyze_file_content fn content name).startup_score ≤ 1 ∧
    (((splitWhitespace name).filter (fun w => 2 < w.length)).length = 0 →
      (analyze_file_content fn content name).startup_score = 0) ∧
    ((analyze_file_content fn content name).startup_consistent = true ↔
      min_startup_consistency_score ≤ (analyze_file_content fn content name).startup_score) := by
  rw [analyze_startup_score_eq fn content name h1 (by omega),
    analyze_startup_consistent_eq fn content name h1 (by omega)]
  refine ⟨rfl, ?_⟩
  by_cases hg : name ≠ "" ∧ 0 < (splitWhitespace name).length
  · rw [if_pos hg, if_pos hg]
    refine ⟨by positivity, ?_, ?_, decide_eq_true_iff⟩
    · rw [div_le_one (by exact_mod_cast hg.2)]
      exact_mod_cast List.length_filter_le _ _
    · intro hq
      have hle : startup_match_count (toLowerStr content) name ≤
          ((splitWhitespace name).filter (fun w => 2 < w.length)).length :=
        length_filter_and_le _ _ _
      rw [show startup_match_count (toLowerStr content) name = 0 by omega]
      norm_num
  · rw [if_neg hg, if_neg hg]
    refine ⟨le_refl 0, by norm_num, fun _ => rfl, ?_⟩
    norm_num [min_startup_consistency_score]

/-- Witness for the amended C3 at name `techstart inc` (2 tokens, both
qualifying, 1 matching) against text `techstart revenue`. -/
theorem c3_amended_ratio_witness :
    (analyze_file_content "f.txt" "techstart revenue" "techstart inc").startup_consistent
        = true ↔
      min_startup_consistency_score ≤
        (analyze_file_content "f.txt" "techstart revenue" "techstart inc").startup_score :=
  (c3_amended_ratio "f.txt" "techstart revenue" "techstart inc"
    (by decide) (by decide)).2.2.2.2

/-- Claim C6, settled against the code as a bug demonstration.  Three facts:
(1) the helper `check_cross_file_consistency` produces its multi-company
warning exactly when the batch has ≥ 2 files and more than 5 distinct
company-marker words occur across the batch (in particular a 1-file batch
never produces it); (2) at a concrete 2-file batch with 6 distinct marker
words the helper does produce the warning; BUT (3) no verdict of
`validate_files` ever carries that warning, because the helper's `consistent`
flag is `true` on every path and `validate_files` forwards the helper's
warnings only when that flag is `false` — the warning the claim (and the
spec's step 5) says is appended never reaches the verdict. -/
theorem c6_cross_file_dead_warning :
    (∀ (fc : List (String × String)) (nm : String),
      (check_cross_file_consistency fc nm).warnings =
        if 2 ≤ fc.length ∧
            5 < ((fc.map (fun p => (company_refs (toLowerStr p.2)).eraseDups)).flatten.eraseDups).length
        then [cross_file_warning_msg] else []) ∧
    (check_cross_file_consistency
      [("a.txt", "acmecompany betacompany gammacompany"),
       ("b.txt", "deltacompany epsiloncompany zetacompany")] "techstart").warnings
        = [cross_file_warning_msg] ∧
    ∀ (files : List UploadFile) (name : String),
      ((validate_files files name).warnings.contains cross_file_warning_msg) = false := by
  refine ⟨?_, by decide, ?_⟩
  · intro fc nm
    simp only [check_cross_file_consistency]
    by_cases hlen : fc.length < 2
    · rw [if_pos hlen, if_neg (by omega)]
    · rw [if_neg hlen]
      by_cases h5 : 5 <
          ((fc.map (fun p => (company_refs (toLowerStr p.2)).eraseDups)).flatten.eraseDups).length
      · rw [if_pos h5, if_pos ⟨by omega, h5⟩]
      · rw [if_neg h5, if_neg (by tauto)]
  · intro files name
    simpa using cross_warning_never_in_verdict files name

end StartupAnalysis
